import Mathlib

/-
Verification of the Anthropic Claude plugin's message/content translation
layer (plugins/anthropic/claude.go) against its natural-language
specification.  The Go source is shallowly embedded: pure Go functions
become Lean functions, `error` returns become `Except`, the provider SDK's
parameter structs become Lean structures, and `map[string]interface{}`
tool outputs become association lists over a JSON value type.
-/

namespace Claude

/-- JSON-representable values, modelling Go `interface\x7b\x7d` payloads that
`encoding/json` can serialize.  Numbers are restricted to integers, which
covers every value the translation layer is exercised with. -/
inductive JsonValue where
  | null
  | bool (b : Bool)
  | num (n : Int)
  | str (s : String)
  | arr (elems : List JsonValue)
  | obj (fields : List (String × JsonValue))

/-- Hexadecimal digit characters, as used by Go's `\uNNNN` escapes. -/
def hexDigitChar (n : Nat) : Char :=
  if n < 10 then Char.ofNat (48 + n) else Char.ofNat (87 + n)

/-- Escape one character the way Go `encoding/json` does with HTML escaping
on: quote, backslash, newline, carriage return and tab get two-character
escapes, `<`, `>`, `&`, U+2028, U+2029 and remaining control characters get
`\uNNNN` escapes, everything else passes through. -/
def escapeChar (c : Char) : List Char :=
  if c = '"' then ['\\', '"']
  else if c = '\\' then ['\\', '\\']
  else if c = '\n' then ['\\', 'n']
  else if c = '\r' then ['\\', 'r']
  else if c = '\t' then ['\\', 't']
  else if c = '<' then ['\\', 'u', '0', '0', '3', 'c']
  else if c = '>' then ['\\', 'u', '0', '0', '3', 'e']
  else if c = '&' then ['\\', 'u', '0', '0', '2', '6']
  else if c.toNat = 0x2028 then ['\\', 'u', '2', '0', '2', '8']
  else if c.toNat = 0x2029 then ['\\', 'u', '2', '0', '2', '9']
  else if c.toNat < 32 then
    ['\\', 'u', '0', '0', hexDigitChar (c.toNat / 16), hexDigitChar (c.toNat % 16)]
  else [c]

/-- Escape a whole string as Go `encoding/json` does (without the enclosing
quotes). -/
def escapeString (s : String) : String :=
  ⟨(s.data.map escapeChar).flatten⟩

/-- Ordering on object fields by key; Go `encoding/json` emits map keys in
ascending string order. -/
def keyLe (a b : String × JsonValue) : Prop := ¬ b.1 < a.1

instance : DecidableRel keyLe := fun _ _ =>
  inferInstanceAs (Decidable ¬ _)

mutual

/-- Recursively sort every object's fields by key, modelling the key
ordering Go `encoding/json` applies to maps. -/
def sortJson : JsonValue → JsonValue
  | .null => .null
  | .bool b => .bool b
  | .num n => .num n
  | .str s => .str s
  | .arr elems => .arr (sortJsonList elems)
  | .obj fields => .obj (List.insertionSort keyLe (sortJsonFields fields))

def sortJsonList : List JsonValue → List JsonValue
  | [] => []
  | v :: vs => sortJson v :: sortJsonList vs

def sortJsonFields : List (String × JsonValue) → List (String × JsonValue)
  | [] => []
  | (k, v) :: fs => (k, sortJson v) :: sortJsonFields fs

end

mutual

/-- Serialize a (key-sorted) JSON value the way Go `encoding/json` prints
it: no whitespace, strings escaped per `escapeChar`. -/
def marshalRaw : JsonValue → String
  | .null => "null"
  | .bool true => "true"
  | .bool false => "false"
  | .num n => toString n
  | .str s => "\"" ++ escapeString s ++ "\""
  | .arr elems => "[" ++ marshalRawList elems ++ "]"
  | .obj fields => "\x7b" ++ marshalRawFields fields ++ "\x7d"

def marshalRawList : List JsonValue → String
  | [] => ""
  | [v] => marshalRaw v
  | v :: vs => marshalRaw v ++ "," ++ marshalRawList vs

def marshalRawFields : List (String × JsonValue) → String
  | [] => ""
  | [(k, v)] => "\"" ++ escapeString k ++ "\":" ++ marshalRaw v
  | (k, v) :: fs => "\"" ++ escapeString k ++ "\":" ++ marshalRaw v ++ "," ++ marshalRawFields fs

end

/-- Model of Go `json.Marshal` restricted to JSON-representable values:
sort all object keys, then print.  On such values `json.Marshal` never
fails, so the model is total. -/
def marshal (v : JsonValue) : String :=
  marshalRaw (sortJson v)

/-- Go map read `m[k]`: first (only) binding of the key in the
association list. -/
def lookupKey (k : String) : List (String × JsonValue) → Option JsonValue
  | [] => none
  | (k', v) :: rest => if k = k' then some v else lookupKey k rest

/-- Agnostic message roles (the genkit `ai.Role` string enum). -/
inductive Role where
  | user
  | system
  | model
  | tool
deriving DecidableEq

/-- Content part kinds (the genkit `ai.PartKind` enum): text, media, raw
data, tool request, tool response. -/
inductive PartKind where
  | text
  | media
  | data
  | toolRequest
  | toolResponse
deriving DecidableEq

/-- Errors the translation layer can return (each corresponds to a
`fmt.Errorf` site in claude.go). -/
inductive ConvertError where
  | unsupportedOutputFormat (format : String)
  | unsupportedPartKind (kind : PartKind)
  | unsupportedRole (role : Role)
  | malformedDataURL
deriving DecidableEq

instance {ε α : Type} [DecidableEq ε] [DecidableEq α] : DecidableEq (Except ε α) :=
  fun a b =>
    match a, b with
    | .error e1, .error e2 => decidable_of_iff (e1 = e2) (by simp)
    | .ok v1, .ok v2 => decidable_of_iff (v1 = v2) (by simp)
    | .error _, .ok _ => .isFalse (by simp)
    | .ok _, .error _ => .isFalse (by simp)

/-- Strip the literal header `data:` demanded by the anchored regexp
`^data:([^;]+);base64,(.+)$` in extractDataFromBase64URL. -/
def stripDataHeader : List Char → Option (List Char)
  | 'd' :: 'a' :: 't' :: 'a' :: ':' :: rest => some rest
  | _ => none

/-- Split `<media-type>;base64,<payload>`: the media type is the maximal
run of non-semicolon characters (greedy `[^;]+`), which must be followed
by the literal `;base64,`; the payload is the remainder. -/
def splitBase64Marker (rest : List Char) : Option (List Char × List Char) :=
  match rest.dropWhile (fun c => c != ';') with
  | ';' :: 'b' :: 'a' :: 's' :: 'e' :: '6' :: '4' :: ',' :: payload =>
      some (rest.takeWhile (fun c => c != ';'), payload)
  | _ => none

/-- Character-list core of extractDataFromBase64URL, embedding the regexp
`^data:([^;]+);base64,(.+)$` under Go RE2 semantics: the media type is one
or more non-semicolon characters, and the payload is one or more
characters in which `.` forbids the newline. -/
def extractCore (cs : List Char) : Option (List Char × List Char) :=
  match stripDataHeader cs with
  | none => none
  | some rest =>
    match splitBase64Marker rest with
    | none => none
    | some (mt, payload) =>
      if mt = [] then none
      else if payload = [] then none
      else if '\n' ∈ payload then none
      else some (payload, mt)

/-- Go extractDataFromBase64URL: on a regexp match returns
(base64 payload, media type); otherwise the malformed-data-URL error. -/
def extractDataFromBase64URL (url : String) : Except ConvertError (String × String) :=
  match extractCore url.data with
  | some (payload, mt) => .ok (⟨payload⟩, ⟨mt⟩)
  | none => .error .malformedDataURL

/-- Go `ai.ToolRequest`: tool name plus structured input. -/
structure ToolRequest where
  name : String := ""
  input : JsonValue := .null

/-- Go `ai.ToolResponse`: tool name plus structured output map. -/
structure ToolResponse where
  name : String := ""
  output : List (String × JsonValue) := []

/-- Go `ai.Part`: a kind tag plus the kind-specific fields the converter
reads.  Fields not populated for a given kind default to zero values, as
Go struct fields do. -/
structure Part where
  kind : PartKind
  text : String := ""
  contentType : String := ""
  toolRequest : ToolRequest := {}
  toolResponse : ToolResponse := {}

/-- Go `ai.NewTextPart`. -/
def NewTextPart (text : String) : Part :=
  { kind := .text, text := text }

/-- Go `ai.Message`: a role plus ordered content parts. -/
structure Message where
  role : Role
  content : List Part := []

/-- The media-type override inside convertToolResponse: keep the
extracted type unless `output["contentType"]` holds a string, in which
case that string wins. -/
def resolveContentType (output : List (String × JsonValue)) (extractedType : String) : String :=
  match lookupKey "contentType" output with
  | some (.str mediaContentType) => mediaContentType
  | _ => extractedType

/-- Go convertToolResponse: if the output map has a string under "url"
that parses as a base64 data URL, emit an image source block, with
`output["contentType"]` overriding the extracted media type when it is a
string; otherwise JSON-stringify the whole output map into a text block.
(The Go fallback returns "" if json.Marshal fails; on JSON-representable
outputs, which the model covers, marshalling always succeeds.) -/
def convertToolResponse (response : ToolResponse) : String :=
  match lookupKey "url" response.output with
  | some (.str url) =>
    match extractDataFromBase64URL url with
    | .ok (base64Data, extractedType) =>
      "\x7b\"type\":\"image\",\"source\":\x7b\"type\":\"base64\",\"data\":\"" ++ base64Data ++
        "\",\"media_type\":\"" ++ resolveContentType response.output extractedType ++ "\"\x7d\x7d"
    | .error _ =>
      "\x7b\"type\":\"text\",\"text\":" ++ marshal (.obj response.output) ++ "\x7d"
  | _ =>
    "\x7b\"type\":\"text\",\"text\":" ++ marshal (.obj response.output) ++ "\x7d"

/-- SDK `anthropic.TextBlockParam` (system blocks). -/
structure TextBlockParam where
  text : String
deriving DecidableEq

/-- SDK message content union: the four block constructors claude.go
builds (`NewTextBlock`, `NewImageBlockBase64`, `NewToolUseBlockParam`,
`NewToolResultBlock`). -/
inductive MessageParamContentUnion where
  | textBlock (text : String)
  | imageBlockBase64 (mediaType : String) (data : String)
  | toolUseBlock (id : String) (name : String) (input : JsonValue)
  | toolResultBlock (toolUseId : String) (content : String) (isError : Bool)

/-- SDK `anthropic.MessageParamRole`. -/
inductive MessageParamRole where
  | user
  | assistant
deriving DecidableEq

/-- SDK `anthropic.MessageParam`. -/
structure MessageParam where
  role : MessageParamRole
  content : List MessageParamContentUnion

/-- Go convertRole: user stays user; both system and model collapse to
assistant; anything else (the tool role) is an unsupported-role error. -/
def convertRole : Role → Except ConvertError MessageParamRole
  | .user => .ok .user
  | .system => .ok .assistant
  | .model => .ok .assistant
  | .tool => .error (.unsupportedRole .tool)

/-- One arm of the `switch part.Kind` in convertMessages: convert a single
content part to a provider block, or fail on an unsupported kind. -/
def convertPart (part : Part) : Except ConvertError MessageParamContentUnion :=
  match part.kind with
  | .text => .ok (.textBlock part.text)
  | .media => .ok (.imageBlockBase64 part.contentType part.text)
  | .toolRequest =>
      .ok (.toolUseBlock part.toolRequest.name part.toolRequest.name part.toolRequest.input)
  | .toolResponse =>
      .ok (.toolResultBlock part.toolResponse.name (convertToolResponse part.toolResponse) false)
  | .data => .error (.unsupportedPartKind .data)

/-- The inner loop of convertMessages: build the content-block list of one
message, aborting at the first unsupported part. -/
def convertContent : List Part → Except ConvertError (List MessageParamContentUnion)
  | [] => .ok []
  | part :: rest =>
    match convertPart part with
    | .error e => .error e
    | .ok block =>
      match convertContent rest with
      | .error e => .error e
      | .ok blocks => .ok (block :: blocks)

/-- The outer loop of convertMessages.  In the Go source the per-message
`content` list is built and then discarded: no statement appends it (or
the message) to the `system` or `user` accumulators, so the loop only
propagates conversion errors. -/
def convertMessagesLoop : List Message → Except ConvertError Unit
  | [] => .ok ()
  | msg :: rest =>
    match convertContent msg.content with
    | .error e => .error e
    | .ok _content => convertMessagesLoop rest

/-- Go convertMessages: starts from empty `system` and `user` lists, runs
the per-message loop (which never appends to either), and returns both
lists — hence, absent an error, always `([], [])`. -/
def convertMessages (messages : List Message) :
    Except ConvertError (List TextBlockParam × List MessageParam) :=
  match convertMessagesLoop messages with
  | .error e => .error e
  | .ok _ => .ok ([], [])

/-- Go `ai.ToolDefinition`. -/
structure ToolDefinition where
  name : String := ""
  description : String := ""
  inputSchema : JsonValue := .null

/-- SDK `anthropic.ToolParam`. -/
structure ToolParam where
  name : String
  inputSchema : JsonValue
  description : String

/-- Go convertTools: copy each definition through verbatim; never fails. -/
def convertTools (tools : List ToolDefinition) : Except ConvertError (List ToolParam) :=
  .ok (tools.map fun t => { name := t.name, inputSchema := t.inputSchema, description := t.description })

/-- Go `ai.GenerationCommonConfig`.  The float64 fields carry opaque
values the converter never computes with, modelled as rationals. -/
structure GenerationCommonConfig where
  maxOutputTokens : Int := 0
  stopSequences : List String := []
  temperature : ℚ := 0
  topK : Int := 0
  topP : ℚ := 0
deriving DecidableEq

/-- SDK `anthropic.ToolChoiceUnionParam`, carried through opaquely. -/
structure ToolChoiceUnionParam where
  choice : String := ""
deriving DecidableEq

/-- SDK `anthropic.MetadataParam`, carried through opaquely. -/
structure MetadataParam where
  userId : String := ""
deriving DecidableEq

/-- Go GenerationAnthropicConfig: embeds the common config and adds
tool-choice and metadata. -/
structure GenerationAnthropicConfig where
  common : GenerationCommonConfig := {}
  toolChoiceParam : ToolChoiceUnionParam := {}
  metadata : MetadataParam := {}
deriving DecidableEq

/-- The request's `Config any` field as convertRequest observes it: the Go
source examines the config only through the two type assertions
`input.Config.(*ai.GenerationCommonConfig)` (line 177) and
`input.Config.(*GenerationAnthropicConfig)` (line 185), so a config value
is represented by the outcomes of those two assertions.  (Go's dynamic
typing makes at most one of them succeed on any one value; the statement
sequence nevertheless fixes the override order when both apply.) -/
structure ConfigAssertions where
  commonConfig : Option GenerationCommonConfig := none
  anthropicConfig : Option GenerationAnthropicConfig := none

/-- Go `ai.GenerateRequestOutput` (the `input.Output` pointer target):
the requested output format string. -/
structure GenerateRequestOutput where
  format : String := ""

/-- Go `ai.GenerateRequest`, restricted to the fields convertRequest
reads. -/
structure GenerateRequest where
  messages : List Message := []
  config : ConfigAssertions := {}
  tools : List ToolDefinition := []
  output : Option GenerateRequestOutput := none

/-- Go `ai.OutputFormatText`. -/
def OutputFormatText : String := "text"

/-- SDK `anthropic.MessageNewParams`: the assembled provider request.
Fields claude.go sets only conditionally are options (an SDK field left
unset is absent from the wire request). -/
structure MessageNewParams where
  system : List TextBlockParam := []
  model : String := ""
  messages : List MessageParam := []
  tools : List ToolParam := []
  maxTokens : Option Int := none
  topK : Option Int := none
  topP : Option ℚ := none
  temperature : Option ℚ := none
  stopSequences : Option (List String) := none
  toolChoice : Option ToolChoiceUnionParam := none
  metadata : Option MetadataParam := none

/-- The guard at the top of convertRequest: reject an output format other
than plain text; a nil `input.Output` skips the check. -/
def checkOutputFormat : Option GenerateRequestOutput → Except ConvertError Unit
  | some o =>
    if o.format = OutputFormatText then .ok ()
    else .error (.unsupportedOutputFormat o.format)
  | none => .ok ()

/-- The `if c, ok := input.Config.(*ai.GenerationCommonConfig)` block of
convertRequest. -/
def applyCommonConfig (params : MessageNewParams) :
    Option GenerationCommonConfig → MessageNewParams
  | some c =>
    { params with
      maxTokens := some c.maxOutputTokens
      topK := some c.topK
      topP := some c.topP
      temperature := some c.temperature
      stopSequences := some c.stopSequences }
  | none => params

/-- The `if c, ok := input.Config.(*GenerationAnthropicConfig)` block of
convertRequest, which re-sets every common field and additionally the
tool choice and metadata. -/
def applyAnthropicConfig (params : MessageNewParams) :
    Option GenerationAnthropicConfig → MessageNewParams
  | some c =>
    { params with
      maxTokens := some c.common.maxOutputTokens
      topK := some c.common.topK
      topP := some c.common.topP
      temperature := some c.common.temperature
      stopSequences := some c.common.stopSequences
      toolChoice := some c.toolChoiceParam
      metadata := some c.metadata }
  | none => params

/-- Go convertRequest: reject a non-text output format, convert messages
and tools, fill the base params, then apply the common-config fields if
that assertion matched and afterwards the provider-specific config fields
if that one matched (the later block overwrites the earlier one). -/
def convertRequest (model : String) (input : GenerateRequest) :
    Except ConvertError MessageNewParams :=
  match checkOutputFormat input.output with
  | .error e => .error e
  | .ok _ =>
    match convertMessages input.messages with
    | .error e => .error e
    | .ok (system, messages) =>
      match convertTools input.tools with
      | .error e => .error e
      | .ok tools =>
        let params : MessageNewParams :=
          { system := system, model := model, messages := messages, tools := tools }
        .ok (applyAnthropicConfig (applyCommonConfig params input.config.commonConfig)
              input.config.anthropicConfig)

/-- SDK `anthropic.ContentBlock`, restricted to the field the translator
reads. -/
structure ContentBlock where
  text : String := ""

/-- SDK `anthropic.Usage`: token counters. -/
structure AnthropicUsage where
  inputTokens : Int := 0
  outputTokens : Int := 0

/-- SDK `anthropic.Message`: the provider response. -/
structure AnthropicMessage where
  content : List ContentBlock := []
  stopReason : String := ""
  usage : AnthropicUsage := {}

/-- Genkit `ai.FinishReason`. -/
inductive FinishReason where
  | stop
  | length
  | blocked
  | other
  | unknown
deriving DecidableEq

/-- Genkit `ai.Candidate`, restricted to the fields the translator sets. -/
structure Candidate where
  finishReason : FinishReason
  message : Message

/-- Genkit `ai.GenerationUsage`. -/
structure GenerationUsage where
  inputTokens : Int := 0
  outputTokens : Int := 0
  totalTokens : Int := 0

/-- Genkit `ai.GenerateResponse`, restricted to the fields the translator
sets (the request back-reference is attached by the caller). -/
structure GenerateResponse where
  candidates : List Candidate := []
  usage : GenerationUsage := {}

/-- The `switch stopReason` of translateCandidate: end_turn maps to stop,
max_tokens to length, stop_sequence and tool_use to other, anything else
to unknown. -/
def translateStopReason (stopReason : String) : FinishReason :=
  if stopReason = "end_turn" then .stop
  else if stopReason = "max_tokens" then .length
  else if stopReason = "stop_sequence" then .other
  else if stopReason = "tool_use" then .other
  else .unknown

/-- Go translateCandidate: a model-role message holding the block's text
as a single text part, with the finish reason derived from the
response-level stop reason. -/
def translateCandidate (c : ContentBlock) (stopReason : String) : Candidate :=
  { finishReason := translateStopReason stopReason
    message := { role := .model, content := [NewTextPart c.text] } }

/-- Go translateResponse: one candidate per content block (all sharing the
response-level stop reason) and the usage counters, with the total equal
to input plus output. -/
def translateResponse (res : AnthropicMessage) : GenerateResponse :=
  { candidates := res.content.map (fun c => translateCandidate c res.stopReason)
    usage :=
      { inputTokens := res.usage.inputTokens
        outputTokens := res.usage.outputTokens
        totalTokens := res.usage.inputTokens + res.usage.outputTokens } }

/-- Example inputs used by witnesses: a common config with temperature
0.5, and a provider-specific config with temperature 0.9 and tool choice
"X". -/
def exCommonConfig : GenerationCommonConfig := { temperature := 0.5 }

/-- The provider-specific config of the witness example. -/
def exAnthropicConfig : GenerationAnthropicConfig :=
  { common := { temperature := 0.9 }, toolChoiceParam := { choice := "X" } }

/-- A request carrying both config-assertion outcomes at once. -/
def exBothConfigInput : GenerateRequest :=
  { messages := [], config := { commonConfig := some exCommonConfig,
                                anthropicConfig := some exAnthropicConfig } }

/-- The params convertRequest assembles for `exBothConfigInput`. -/
def exBothConfigParams : MessageNewParams :=
  { model := "claude-3", maxTokens := some 0, topK := some 0, topP := some 0,
    temperature := some 0.9, stopSequences := some [],
    toolChoice := some { choice := "X" }, metadata := some { userId := "" } }

/-- A provider response with one text block, the tool_use stop reason and
usage counters 3/4, used by the C6 witness. -/
def exUsageResponse : AnthropicMessage :=
  { content := [{ text := "hi" }], stopReason := "tool_use",
    usage := { inputTokens := 3, outputTokens := 4 } }

/-- A tool response whose output map holds a data URL under "url". -/
def exImageResponse : ToolResponse :=
  { name := "draw", output := [("url", .str "data:image/png;base64,AAA=")] }

/-- Like `exImageResponse` but with a "contentType" override. -/
def exImageResponseOverride : ToolResponse :=
  { name := "draw",
    output := [("url", .str "data:image/png;base64,AAA="),
               ("contentType", .str "image/jpeg")] }

end Claude

namespace Claude

/-! Helper lemmas about the embedded definitions, shared by the claim
theorems below. -/

theorem string_data_append (s t : String) : (s ++ t).data = s.data ++ t.data := by
  cases s; cases t; rfl

theorem takeWhile_append_no_semi (mt rest : List Char) (h : ';' ∉ mt) :
    List.takeWhile (fun c => c != ';') (mt ++ ';' :: rest) = mt := by
  induction mt with
  | nil => simp [List.takeWhile_cons]
  | cons c cs ih =>
    simp only [List.mem_cons, not_or] at h
    have hc : (c != ';') = true := bne_iff_ne.mpr (fun hcc => h.1 hcc.symm)
    simp only [List.cons_append, List.takeWhile_cons, hc, if_pos]
    rw [ih (fun hm => h.2 hm)]

theorem dropWhile_append_no_semi (mt rest : List Char) (h : ';' ∉ mt) :
    List.dropWhile (fun c => c != ';') (mt ++ ';' :: rest) = ';' :: rest := by
  induction mt with
  | nil => simp [List.dropWhile_cons]
  | cons c cs ih =>
    simp only [List.mem_cons, not_or] at h
    have hc : (c != ';') = true := bne_iff_ne.mpr (fun hcc => h.1 hcc.symm)
    simp only [List.cons_append, List.dropWhile_cons, hc, if_pos]
    exact ih (fun hm => h.2 hm)

theorem splitBase64Marker_append (mt payload : List Char) (h : ';' ∉ mt) :
    splitBase64Marker
        (mt ++ (';' :: 'b' :: 'a' :: 's' :: 'e' :: '6' :: '4' :: ',' :: payload)) =
      some (mt, payload) := by
  unfold splitBase64Marker
  rw [dropWhile_append_no_semi mt _ h, takeWhile_append_no_semi mt _ h]
  rfl

theorem stripDataHeader_eq_some (cs rest : List Char) :
    stripDataHeader cs = some rest ↔ cs = 'd' :: 'a' :: 't' :: 'a' :: ':' :: rest := by
  constructor
  · intro h
    unfold stripDataHeader at h
    split at h
    · injection h with h; rw [h]
    · exact absurd h (by simp)
  · intro h
    rw [h]
    rfl

theorem splitBase64Marker_eq_some (rest mt payload : List Char)
    (h : splitBase64Marker rest = some (mt, payload)) :
    rest = mt ++ (';' :: 'b' :: 'a' :: 's' :: 'e' :: '6' :: '4' :: ',' :: payload) ∧
      ';' ∉ mt := by
  unfold splitBase64Marker at h
  split at h
  case _ p heq =>
    injection h with h
    injection h with h1 h2
    subst h1; subst h2
    constructor
    · conv_lhs => rw [← List.takeWhile_append_dropWhile (fun c => c != ';') rest]
      rw [heq]
    · intro hm
      have := List.mem_takeWhile_imp hm
      simp at this
  case _ => exact absurd h (by simp)

theorem extractCore_eq_some_iff (cs payload mt : List Char) :
    extractCore cs = some (payload, mt) ↔
      cs = 'd' :: 'a' :: 't' :: 'a' :: ':' ::
            (mt ++ (';' :: 'b' :: 'a' :: 's' :: 'e' :: '6' :: '4' :: ',' :: payload)) ∧
        mt ≠ [] ∧ ';' ∉ mt ∧ payload ≠ [] ∧ '\n' ∉ payload := by
  constructor
  · intro h
    unfold extractCore at h
    split at h
    · exact absurd h (by simp)
    · rename_i rest hs
      split at h
      · exact absurd h (by simp)
      · rename_i mt' payload' hm
        split_ifs at h with h1 h2 h3
        injection h with h
        injection h with hp hmt
        subst hp; subst hmt
        obtain ⟨hrest, hsemi⟩ := splitBase64Marker_eq_some rest mt' payload' hm
        refine ⟨?_, h1, hsemi, h2, h3⟩
        rw [(stripDataHeader_eq_some cs rest).mp hs, hrest]
  · rintro ⟨rfl, h1, h2, h3, h4⟩
    unfold extractCore
    split
    · rename_i heq
      exact absurd heq (by simp [stripDataHeader])
    · rename_i rest heq
      simp only [stripDataHeader, Option.some.injEq] at heq
      subst heq
      rw [splitBase64Marker_append mt payload h2]
      simp [h1, h3, h4]

/-! The claim theorems. -/

/-- C4 (amended): extractDataFromBase64URL returns `(payload, media-type)`
exactly on the strings `data:<media-type>;base64,<payload>` where the
media type is one or more non-semicolon characters and the payload is one
or more characters none of which is a newline (the regexp's `.` does not
match a newline and `+` demands at least one character); every other
string yields the malformed-data-URL error. -/
theorem extractDataFromBase64URL_spec :
    (∀ url payload mt : String,
        extractDataFromBase64URL url = .ok (payload, mt) ↔
          (url = "data:" ++ mt ++ ";base64," ++ payload ∧ mt ≠ "" ∧ ';' ∉ mt.data ∧
            payload ≠ "" ∧ '\n' ∉ payload.data)) ∧
    (∀ url : String, extractDataFromBase64URL url = .error .malformedDataURL ∨
        ∃ payload mt : String, extractDataFromBase64URL url = .ok (payload, mt)) := by
  constructor
  · intro url payload mt
    constructor
    · intro h
      unfold extractDataFromBase64URL at h
      split at h
      · rename_i p' m' hc
        injection h with h
        injection h with hpp hmm
        obtain ⟨hshape, h1, h2, h3, h4⟩ := (extractCore_eq_some_iff url.data p' m').mp hc
        subst hpp; subst hmm
        refine ⟨?_, ?_, ?_, ?_, ?_⟩
        · apply String.ext_iff.mpr
          rw [string_data_append, string_data_append, string_data_append, hshape]
          rw [show ("data:" : String).data = ['d', 'a', 't', 'a', ':'] from rfl,
            show (";base64," : String).data =
              [';', 'b', 'a', 's', 'e', '6', '4', ','] from rfl]
          simp
        · intro hx
          exact h1 (by simpa using congrArg String.data hx)
        · exact h2
        · intro hx
          exact h3 (by simpa using congrArg String.data hx)
        · exact h4
      · rename_i hc
        exact absurd h (by simp)
    · rintro ⟨rfl, h1, h2, h3, h4⟩
      have hurl : ("data:" ++ mt ++ ";base64," ++ payload).data =
          'd' :: 'a' :: 't' :: 'a' :: ':' ::
            (mt.data ++ (';' :: 'b' :: 'a' :: 's' :: 'e' :: '6' :: '4' :: ',' :: payload.data)) := by
        rw [string_data_append, string_data_append, string_data_append]
        rw [show ("data:" : String).data = ['d', 'a', 't', 'a', ':'] from rfl,
          show (";base64," : String).data =
            [';', 'b', 'a', 's', 'e', '6', '4', ','] from rfl]
        simp
      have hcore : extractCore ("data:" ++ mt ++ ";base64," ++ payload).data =
          some (payload.data, mt.data) := by
        rw [hurl]
        exact (extractCore_eq_some_iff _ payload.data mt.data).mpr
          ⟨rfl, fun hm => h1 (by cases mt; simp_all), h2,
            fun hp => h3 (by cases payload; simp_all), h4⟩
      unfold extractDataFromBase64URL
      rw [hcore]
  · intro url
    unfold extractDataFromBase64URL
    cases hc : extractCore url.data with
    | none => exact Or.inl rfl
    | some pm => exact Or.inr ⟨⟨pm.1⟩, ⟨pm.2⟩, rfl⟩

/-- C4 witness: a concrete valid data URL round-trips through the amended
specification. -/
theorem extractDataFromBase64URL_spec_witness :
    extractDataFromBase64URL "data:image/png;base64,AAA=" = .ok ("AAA=", "image/png") :=
  (extractDataFromBase64URL_spec.1 "data:image/png;base64,AAA=" "AAA=" "image/png").mpr
    ⟨by decide, by decide, by decide, by decide, by decide⟩

/-- C4 counterexample: `data:text/plain;base64,A\nB` is literally of the
form `data:<media-type>;base64,<payload>` (with a newline inside the
payload), and `data:a;base64,` is of that form with an empty payload, yet
extraction fails on both instead of returning the payload/media-type
pair, refuting the claim as stated. -/
theorem extractDataFromBase64URL_newline_counterexample :
    "data:text/plain;base64,A\nB" = "data:" ++ "text/plain" ++ ";base64," ++ "A\nB" ∧
    extractDataFromBase64URL "data:text/plain;base64,A\nB" ≠ .ok ("A\nB", "text/plain") ∧
    "data:a;base64," = "data:" ++ "a" ++ ";base64," ++ "" ∧
    extractDataFromBase64URL "data:a;base64," ≠ .ok ("", "a") := by
  refine ⟨by decide, by decide, by decide, by decide⟩

/-- C10: for every nonempty, semicolon-free media type, the data URL with
an empty payload after the comma fails with the malformed-data-URL error
(the regexp's `(.+)` requires at least one payload character) rather than
returning an empty payload. -/
theorem extractDataFromBase64URL_empty_payload (mt : String) (h1 : mt ≠ "")
    (h2 : ';' ∉ mt.data) :
    extractDataFromBase64URL ("data:" ++ mt ++ ";base64,") = .error .malformedDataURL := by
  have hurl : ("data:" ++ mt ++ ";base64,").data =
      'd' :: 'a' :: 't' :: 'a' :: ':' ::
        (mt.data ++ (';' :: 'b' :: 'a' :: 's' :: 'e' :: '6' :: '4' :: ',' :: ([] : List Char))) := by
    rw [string_data_append, string_data_append]
    rw [show ("data:" : String).data = ['d', 'a', 't', 'a', ':'] from rfl,
      show (";base64," : String).data = [';', 'b', 'a', 's', 'e', '6', '4', ','] from rfl]
    simp
  have hcore : extractCore ("data:" ++ mt ++ ";base64,").data = none := by
    rw [hurl]
    unfold extractCore
    split
    · rfl
    · rename_i rest heq
      simp only [stripDataHeader, Option.some.injEq] at heq
      subst heq
      rw [splitBase64Marker_append mt.data [] h2]
      have hmt : mt.data ≠ [] := fun hm => h1 (by cases mt; simp_all)
      simp [hmt]
  unfold extractDataFromBase64URL
  rw [hcore]

/-- C10 witness: the concrete empty-payload URL `data:image/png;base64,`
is rejected. -/
theorem extractDataFromBase64URL_empty_payload_witness :
    extractDataFromBase64URL "data:image/png;base64," = .error .malformedDataURL :=
  extractDataFromBase64URL_empty_payload "image/png" (by decide) (by decide)

theorem convertPart_of_supported (part : Part) (h : part.kind ≠ .data) :
    ∃ block, convertPart part = .ok block := by
  cases hk : part.kind
  case data => exact absurd hk h
  all_goals exact ⟨_, by unfold convertPart; rw [hk]⟩

theorem convertPart_of_data (part : Part) (h : part.kind = .data) :
    convertPart part = .error (.unsupportedPartKind .data) := by
  unfold convertPart
  rw [h]

theorem convertContent_of_supported (parts : List Part)
    (h : ∀ p ∈ parts, p.kind ≠ .data) :
    ∃ blocks, convertContent parts = .ok blocks := by
  induction parts with
  | nil => exact ⟨[], rfl⟩
  | cons part rest ih =>
    obtain ⟨block, hb⟩ := convertPart_of_supported part (h part (by simp))
    obtain ⟨blocks, hbs⟩ := ih (fun p hp => h p (by simp [hp]))
    refine ⟨block :: blocks, ?_⟩
    unfold convertContent
    rw [hb, hbs]

theorem convertContent_of_data (parts : List Part) (part : Part)
    (hp : part ∈ parts) (hk : part.kind = .data) :
    convertContent parts = .error (.unsupportedPartKind .data) := by
  induction parts with
  | nil => exact absurd hp (by simp)
  | cons q rest ih =>
    rcases List.mem_cons.mp hp with hq | hq
    · subst hq
      unfold convertContent
      rw [convertPart_of_data part hk]
    · by_cases hqd : q.kind = .data
      · unfold convertContent
        rw [convertPart_of_data q hqd]
      · obtain ⟨block, hb⟩ := convertPart_of_supported q hqd
        unfold convertContent
        rw [hb, ih hq]

theorem convertMessagesLoop_of_supported (messages : List Message)
    (h : ∀ msg ∈ messages, ∀ p ∈ msg.content, p.kind ≠ .data) :
    convertMessagesLoop messages = .ok () := by
  induction messages with
  | nil => rfl
  | cons msg rest ih =>
    obtain ⟨blocks, hbs⟩ := convertContent_of_supported msg.content
      (fun p hp => h msg (by simp) p hp)
    unfold convertMessagesLoop
    rw [hbs, ih (fun m hm p hp => h m (by simp [hm]) p hp)]

theorem convertMessagesLoop_of_data (messages : List Message) (msg : Message) (part : Part)
    (hm : msg ∈ messages) (hp : part ∈ msg.content) (hk : part.kind = .data) :
    convertMessagesLoop messages = .error (.unsupportedPartKind .data) := by
  induction messages with
  | nil => exact absurd hm (by simp)
  | cons q rest ih =>
    rcases List.mem_cons.mp hm with hq | hq
    · subst hq
      unfold convertMessagesLoop
      rw [convertContent_of_data msg.content part hp hk]
    · by_cases hqd : ∃ p ∈ q.content, p.kind = .data
      · obtain ⟨p, hpq, hpd⟩ := hqd
        unfold convertMessagesLoop
        rw [convertContent_of_data q.content p hpq hpd]
      · push_neg at hqd
        obtain ⟨blocks, hbs⟩ := convertContent_of_supported q.content hqd
        unfold convertMessagesLoop
        rw [hbs, ih hq]

/-- convertMessages either succeeds — necessarily with two empty lists —
or fails with the unsupported-part-kind error, the only error the loop
can produce. -/
theorem convertMessages_cases (messages : List Message) :
    convertMessages messages = .ok ([], []) ∨
      convertMessages messages = .error (.unsupportedPartKind .data) := by
  by_cases h : ∃ msg ∈ messages, ∃ p ∈ msg.content, p.kind = .data
  · obtain ⟨msg, hm, p, hp, hk⟩ := h
    right
    unfold convertMessages
    rw [convertMessagesLoop_of_data messages msg p hm hp hk]
  · push_neg at h
    left
    unfold convertMessages
    rw [convertMessagesLoop_of_supported messages h]

/-- C1: the claim says every converted message of an all-text
conversation is appended to the returned lists, preserving the message
count; in the code the per-message content is discarded, so the
one-message all-text conversation below comes back as two empty lists
(count 0, not 1). -/
theorem convertMessages_drops_all_messages :
    convertMessages [{ role := .user, content := [NewTextPart "hello"] }] =
      .ok ([], []) ∧
    ([] : List MessageParam).length ≠
      [({ role := .user, content := [NewTextPart "hello"] } : Message)].length := by
  exact ⟨rfl, by decide⟩

/-- C8: a message containing a part of the unsupported kind (the `data`
kind, the one outside text/media/tool-request/tool-response) makes
convertMessages fail with the unsupported-part-kind error naming that
kind, and a conversation whose parts are all of supported kinds never
produces that error. -/
theorem convertMessages_unsupported_part_kind :
    (∀ (messages : List Message) (msg : Message) (part : Part),
        msg ∈ messages → part ∈ msg.content → part.kind = .data →
        convertMessages messages = .error (.unsupportedPartKind part.kind)) ∧
    (∀ messages : List Message,
        (∀ msg ∈ messages, ∀ part ∈ msg.content, part.kind ≠ .data) →
        convertMessages messages = .ok ([], [])) := by
  constructor
  · intro messages msg part hm hp hk
    rw [hk]
    unfold convertMessages
    rw [convertMessagesLoop_of_data messages msg part hm hp hk]
  · intro messages h
    unfold convertMessages
    rw [convertMessagesLoop_of_supported messages h]

/-- C8 witness: a concrete data-kind part is rejected with the error
naming the `data` kind, and a concrete supported-kinds conversation
converts without error. -/
theorem convertMessages_unsupported_part_kind_witness :
    convertMessages [{ role := .user, content := [{ kind := .data }] }] =
      .error (.unsupportedPartKind .data) ∧
    convertMessages [{ role := .user, content := [NewTextPart "hi"] },
        { role := .model, content := [{ kind := .media, contentType := "image/png",
                                        text := "AAA=" }] }] = .ok ([], []) := by
  constructor
  · exact convertMessages_unsupported_part_kind.1 _
      { role := .user, content := [{ kind := .data }] } { kind := .data }
      (by simp) (by simp) rfl
  · exact convertMessages_unsupported_part_kind.2 _ (by
      intro msg hm part hp
      rcases List.mem_cons.mp hm with h | h
      · subst h; simp at hp; subst hp; decide
      · simp at h; subst h; simp at hp; subst hp; decide)

/-- C7: whenever the request carries an output specification whose format
is not plain text, convertRequest fails with the unsupported-output-format
error, before looking at messages or tools. -/
theorem convertRequest_rejects_non_text_output (model : String) (input : GenerateRequest)
    (o : GenerateRequestOutput) (ho : input.output = some o)
    (hf : o.format ≠ OutputFormatText) :
    convertRequest model input = .error (.unsupportedOutputFormat o.format) := by
  have hc : checkOutputFormat input.output = .error (.unsupportedOutputFormat o.format) := by
    rw [ho]
    simp only [checkOutputFormat]
    rw [if_neg hf]
  unfold convertRequest
  rw [hc]

/-- C7 witness: a request asking for "json" output is rejected even
though its messages and tools are themselves convertible. -/
theorem convertRequest_rejects_non_text_output_witness :
    convertRequest "claude-3"
        { messages := [{ role := .user, content := [NewTextPart "hi"] }],
          tools := [{ name := "t" }], output := some { format := "json" } } =
      .error (.unsupportedOutputFormat "json") :=
  convertRequest_rejects_non_text_output "claude-3" _ { format := "json" } rfl (by decide)

/-- C9: when the request has no output specification at all, convertRequest
never fails with the unsupported-output-format error: the plain-text check
is guarded by the nil test on `input.Output`. -/
theorem convertRequest_no_format_error_without_output (model : String)
    (input : GenerateRequest) (h : input.output = none) (f : String) :
    convertRequest model input ≠ .error (.unsupportedOutputFormat f) := by
  have hc : checkOutputFormat input.output = .ok () := by rw [h]; rfl
  unfold convertRequest
  rw [hc]
  rcases convertMessages_cases input.messages with hm | hm
  · rw [hm]
    simp [convertTools]
  · rw [hm]
    simp

/-- C9 witness: a concrete request without an output specification does
not yield the unsupported-output-format error. -/
theorem convertRequest_no_format_error_without_output_witness :
    convertRequest "claude-3" { messages := [{ role := .user, content := [NewTextPart "hi"] }] } ≠
      .error (.unsupportedOutputFormat "json") :=
  convertRequest_no_format_error_without_output "claude-3" _ rfl "json"

/-- C3: when both config-assertion outcomes are present on a request, the
assembled params take temperature, tool choice, and every other
generation field from the provider-specific config: its block runs second
and fully overwrites the common block's fields, with no merge. -/
theorem convertRequest_specific_config_overrides_common (model : String)
    (input : GenerateRequest) (cc : GenerationCommonConfig)
    (ac : GenerationAnthropicConfig)
    (hcc : input.config.commonConfig = some cc)
    (hac : input.config.anthropicConfig = some ac)
    (p : MessageNewParams) (hp : convertRequest model input = .ok p) :
    p.temperature = some ac.common.temperature ∧
    p.toolChoice = some ac.toolChoiceParam ∧
    p.maxTokens = some ac.common.maxOutputTokens ∧
    p.topK = some ac.common.topK ∧
    p.topP = some ac.common.topP ∧
    p.stopSequences = some ac.common.stopSequences ∧
    p.metadata = some ac.metadata := by
  unfold convertRequest at hp
  split at hp
  · exact absurd hp (by simp)
  · split at hp
    · exact absurd hp (by simp)
    · split at hp
      · exact absurd hp (by simp)
      · rw [hcc, hac] at hp
        injection hp with hp
        subst hp
        exact ⟨rfl, rfl, rfl, rfl, rfl, rfl, rfl⟩

/-- C3 witness: with a common config carrying temperature 0.5 and a
provider-specific config carrying temperature 0.9 and tool choice "X",
the assembled request has temperature 0.9 and tool choice "X". -/
theorem convertRequest_specific_config_overrides_common_witness :
    convertRequest "claude-3" exBothConfigInput = .ok exBothConfigParams ∧
    exBothConfigParams.temperature = some 0.9 ∧
    exBothConfigParams.toolChoice = some { choice := "X" } := by
  have hok : convertRequest "claude-3" exBothConfigInput = .ok exBothConfigParams := rfl
  have h := convertRequest_specific_config_overrides_common "claude-3" exBothConfigInput
    exCommonConfig exAnthropicConfig rfl rfl exBothConfigParams hok
  exact ⟨hok, h.1, h.2.1⟩

/-- C6: the stop-reason mapping is total and deterministic — end_turn to
Stop, max_tokens to Length, stop_sequence and tool_use to Other, anything
else to Unknown — it is applied to every candidate from the
response-level stop reason, and the translated usage total always equals
input plus output tokens exactly. -/
theorem translateResponse_finish_and_usage :
    translateStopReason "end_turn" = .stop ∧
    translateStopReason "max_tokens" = .length ∧
    translateStopReason "stop_sequence" = .other ∧
    translateStopReason "tool_use" = .other ∧
    (∀ s : String, s ≠ "end_turn" → s ≠ "max_tokens" → s ≠ "stop_sequence" →
        s ≠ "tool_use" → translateStopReason s = .unknown) ∧
    (∀ res : AnthropicMessage, ∀ c ∈ (translateResponse res).candidates,
        c.finishReason = translateStopReason res.stopReason) ∧
    (∀ res : AnthropicMessage,
        (translateResponse res).usage.totalTokens =
          (translateResponse res).usage.inputTokens +
            (translateResponse res).usage.outputTokens) := by
  refine ⟨rfl, rfl, rfl, rfl, ?_, ?_, ?_⟩
  · intro s h1 h2 h3 h4
    unfold translateStopReason
    rw [if_neg h1, if_neg h2, if_neg h3, if_neg h4]
  · intro res c hc
    simp only [translateResponse, List.mem_map] at hc
    obtain ⟨b, _, rfl⟩ := hc
    rfl
  · intro res
    rfl

/-- C6 witness: an unrecognized stop reason maps to unknown, and concrete
usage counters 3 and 4 produce the total 7. -/
theorem translateResponse_finish_and_usage_witness :
    translateStopReason "banana" = .unknown ∧
    (translateResponse exUsageResponse).usage.totalTokens = 7 := by
  constructor
  · exact translateResponse_finish_and_usage.2.2.2.2.1 "banana"
      (by decide) (by decide) (by decide) (by decide)
  · exact (translateResponse_finish_and_usage.2.2.2.2.2.2 exUsageResponse).trans (by decide)

/-- C2 counterexample: for the output map with 42 under "result", the
claim demands the text field hold the serialized map as a quoted JSON
string, but the code interpolates the serialized map unquoted, so the
claimed output is not produced. -/
theorem convertToolResponse_text_not_json_string :
    convertToolResponse { name := "calc", output := [("result", .num 42)] } ≠
      "\x7b\"type\":\"text\",\"text\":\"\x7b\\\"result\\\":42\x7d\"\x7d" := by
  decide

/-- C2 (amended): for every tool-response output map that does not take
the image path, convertToolResponse returns the whole map JSON-serialized
and interpolated directly (unquoted) into a text block: the result is
`\x7b"type":"text","text":<json>\x7d` where `<json>` is the serialized map —
for `\x7b"result": 42\x7d` exactly `\x7b"type":"text","text":\x7b"result":42\x7d\x7d`. -/
theorem convertToolResponse_wraps_raw_json (response : ToolResponse)
    (h : ∀ url p m : String, lookupKey "url" response.output = some (.str url) →
        extractDataFromBase64URL url ≠ .ok (p, m)) :
    convertToolResponse response =
      "\x7b\"type\":\"text\",\"text\":" ++ marshal (.obj response.output) ++ "\x7d" := by
  cases hu : lookupKey "url" response.output with
  | some v =>
    cases v with
    | str url =>
      cases he : extractDataFromBase64URL url with
      | ok pm => exact absurd he (h url pm.1 pm.2 hu)
      | error e =>
        unfold convertToolResponse
        simp only [hu, he]
    | null => unfold convertToolResponse; simp only [hu]
    | bool b => unfold convertToolResponse; simp only [hu]
    | num n => unfold convertToolResponse; simp only [hu]
    | arr es => unfold convertToolResponse; simp only [hu]
    | obj fs => unfold convertToolResponse; simp only [hu]
  | none =>
    unfold convertToolResponse
    simp only [hu]

/-- C2 witness: the concrete map with 42 under "result" becomes the text
block with the serialized map embedded raw. -/
theorem convertToolResponse_wraps_raw_json_witness :
    convertToolResponse { name := "calc", output := [("result", .num 42)] } =
      "\x7b\"type\":\"text\",\"text\":\x7b\"result\":42\x7d\x7d" := by
  have h := convertToolResponse_wraps_raw_json
    { name := "calc", output := [("result", .num 42)] }
    (by intro url p m hu; exact Option.noConfusion hu)
  exact h.trans (by decide)

/-- C5: for every tool-response output map whose "url" key holds a string
parsing as a base64 data URL, convertToolResponse returns the image
source block carrying the extracted payload, with the media type resolved
to `output["contentType"]` when that is a string and to the extracted
type otherwise. -/
theorem convertToolResponse_image_source_block (response : ToolResponse)
    (url p m : String) (hu : lookupKey "url" response.output = some (.str url))
    (he : extractDataFromBase64URL url = .ok (p, m)) :
    convertToolResponse response =
      "\x7b\"type\":\"image\",\"source\":\x7b\"type\":\"base64\",\"data\":\"" ++ p ++
        "\",\"media_type\":\"" ++ resolveContentType response.output m ++ "\"\x7d\x7d" := by
  unfold convertToolResponse
  simp only [hu, he]

/-- C5 witness: the two spec examples — without "contentType" the media
type is the extracted "image/png"; with "contentType" set to "image/jpeg"
the override wins. -/
theorem convertToolResponse_image_source_block_witness :
    convertToolResponse exImageResponse =
      "\x7b\"type\":\"image\",\"source\":\x7b\"type\":\"base64\",\"data\":\"AAA=\",\"media_type\":\"image/png\"\x7d\x7d" ∧
    convertToolResponse exImageResponseOverride =
      "\x7b\"type\":\"image\",\"source\":\x7b\"type\":\"base64\",\"data\":\"AAA=\",\"media_type\":\"image/jpeg\"\x7d\x7d" := by
  constructor
  · exact (convertToolResponse_image_source_block exImageResponse
      "data:image/png;base64,AAA=" "AAA=" "image/png" rfl (by decide)).trans (by decide)
  · exact (convertToolResponse_image_source_block exImageResponseOverride
      "data:image/png;base64,AAA=" "AAA=" "image/png" rfl (by decide)).trans (by decide)

end Claude
